import Mathlib

/-!
Verification of the NF-e invoice extraction and reconciliation pipeline of this
repository (pages 02_upgrade_xml.py and update_xml.py, which share the pipeline
verbatim).  The pandas dataframe stages are embedded as functions over lists of
records; every definition mirrors the corresponding source function or column
operation.  String operations are implemented over the underlying character
lists so that all definitions evaluate inside the kernel.
-/

namespace NfePipeline

/-! ## Basic string and list helpers (models of the Python primitives used) -/

/-- Build a string from a character list. -/
def ofChars (l : List Char) : String := String.mk l

/-- Left-pad with the zero character to width n; model of str.zfill (sign handling
is irrelevant here because the padded values never carry a sign). -/
def zfillChars (n : Nat) (l : List Char) : List Char :=
  if l.length ≥ n then l else List.replicate (n - l.length) '0' ++ l

/-- str.zfill on strings. -/
def zfillQ (n : Nat) (s : String) : String := ofChars (zfillChars n s.data)

/-- str.split() with no argument: split on whitespace runs, dropping empties. -/
def splitWsAux : List Char → List Char → List (List Char)
  | acc, [] => if acc.isEmpty then [] else [acc.reverse]
  | acc, c :: rest =>
    if c.isWhitespace then
      (if acc.isEmpty then splitWsAux [] rest else acc.reverse :: splitWsAux [] rest)
    else splitWsAux (c :: acc) rest

/-- Whitespace tokenization, model of Python str.split(). -/
def splitWs (s : String) : List String := (splitWsAux [] s.data).map ofChars

/-- s[:n] slicing on strings. -/
def takeQ (n : Nat) (s : String) : String := ofChars (s.data.take n)

/-- str.startswith. -/
def startsWithQ (pre s : String) : Bool := s.data.take pre.data.length == pre.data

/-- str.join with a separator, model of Python sep.join(list). -/
def intercalateQ (sep : String) : List String → String
  | [] => ""
  | [x] => x
  | x :: y :: xs => x ++ sep ++ intercalateQ sep (y :: xs)

/-- Accumulator for decimal digit strings. -/
def digitsToNatAux : Nat → List Char → Nat
  | acc, [] => acc
  | acc, c :: rest => digitsToNatAux (acc * 10 + (c.toNat - 48)) rest

/-- Parse a non-empty all-digit string to Nat, otherwise none.  This models both
int() on digit strings and pd.to_numeric(errors=coerce) on the digit-string key
columns of this pipeline (tax ids, po), where a failed parse becomes NaN. -/
def toNatD (s : String) : Option Nat :=
  if s.data ≠ [] ∧ s.data.all Char.isDigit then some (digitsToNatAux 0 s.data) else none

/-- All characters are decimal digits. -/
def allDigits (s : String) : Bool := s.data.all Char.isDigit

/-- Split a character list at every dot. -/
def splitOnDot : List Char → List (List Char)
  | [] => [[]]
  | c :: rest =>
    if c = '.' then [] :: splitOnDot rest
    else match splitOnDot rest with
      | [] => [[c]]
      | p :: ps => (c :: p) :: ps

/-- Model of Python float() restricted to the unsigned decimal grammar
(digits, digits.digits, .digits, digits.) that the pipeline feeds it; every
other input is treated as a parse failure.  Exponents, signs, inf and nan do
not occur in the NF-e numeric fields handled here. -/
def pyFloatQ (s : String) : Option ℚ :=
  match (splitOnDot s.data).map ofChars with
  | [a] => (toNatD a).map (fun n => (n : ℚ))
  | [a, b] =>
    if (a.data ≠ [] ∨ b.data ≠ []) ∧ allDigits a ∧ allDigits b then
      some (((toNatD a).getD 0 : ℚ) + ((toNatD b).getD 0 : ℚ) / (10 : ℚ) ^ b.length)
    else none
  | _ => none

/-- str.replace(c, empty string): drop every occurrence of one character. -/
def removeCharQ (c : Char) (s : String) : String := ofChars (s.data.filter (fun d => d ≠ c))

/-- str.replace of one character by another. -/
def replaceCharQ (a b : Char) (s : String) : String :=
  ofChars (s.data.map (fun c => if c = a then b else c))

/-- re.sub of one-or-more spaces by a single space (only the space character,
as in the source pattern). -/
def collapseSpacesAux : Bool → List Char → List Char
  | _, [] => []
  | prevSpace, c :: rest =>
    if c = ' ' then
      (if prevSpace then collapseSpacesAux true rest else ' ' :: collapseSpacesAux true rest)
    else c :: collapseSpacesAux false rest

/-- str.strip(): drop leading and trailing whitespace. -/
def stripChars (l : List Char) : List Char :=
  ((l.dropWhile Char.isWhitespace).reverse.dropWhile Char.isWhitespace).reverse

/-- str.upper (the descriptions handled here are ASCII). -/
def upperQ (s : String) : String := ofChars (s.data.map Char.toUpper)

/-- Lexicographic comparison of character lists by code point. -/
def strLtChars : List Char → List Char → Bool
  | [], [] => false
  | [], _ :: _ => true
  | _ :: _, [] => false
  | a :: as, b :: bs => if a = b then strLtChars as bs else a.toNat < b.toNat

/-- Lexicographic string comparison. -/
def strLtQ (a b : String) : Bool := strLtChars a.data b.data

/-- Decimal representation of a Nat. -/
def natRepr (n : Nat) : String := Nat.repr n

/-- Decimal representation of an Int, as Python str(). -/
def intRepr : Int → String
  | .ofNat m => natRepr m
  | .negSucc m => "-" ++ natRepr (m + 1)

/-- First-occurrence deduplication by key with an explicit seen set; model of
pandas drop_duplicates keeping the first row of every key class. -/
def dedupByAux {α β : Type} [DecidableEq β] (key : α → β) : List β → List α → List α
  | _, [] => []
  | seen, r :: rs =>
    if key r ∈ seen then dedupByAux key seen rs
    else r :: dedupByAux key (key r :: seen) rs

/-- pandas DataFrame.drop_duplicates (keep=first) on a key column set. -/
def dedupBy {α β : Type} [DecidableEq β] (key : α → β) (l : List α) : List α :=
  dedupByAux key [] l

/-- Insertion step of the sorting model. -/
def sortByAux {α : Type} (le : α → α → Bool) (x : α) : List α → List α
  | [] => [x]
  | y :: ys => if le x y then x :: y :: ys else y :: sortByAux le x ys

/-- Insertion sort; a sorting model for pandas sort_values and sorted groupby
keys (the claims checked below are insensitive to which stable order the
sorting algorithm yields). -/
def sortBy {α : Type} (le : α → α → Bool) : List α → List α
  | [] => []
  | x :: xs => sortByAux le x (sortBy le xs)

instance instDecEqExcept {ε α : Type} [DecidableEq ε] [DecidableEq α] :
    DecidableEq (Except ε α) := fun a b =>
  match a, b with
  | .ok x, .ok y => if h : x = y then .isTrue (by rw [h]) else .isFalse (by simp [h])
  | .ok _, .error _ => .isFalse (by simp)
  | .error _, .ok _ => .isFalse (by simp)
  | .error x, .error y => if h : x = y then .isTrue (by rw [h]) else .isFalse (by simp [h])

/-! ## PO-reference resolver (filter_info_adic, truncate_to_10_chars,
get_first_non_empty_po from 02_upgrade_xml.py lines 94-103, 380-398) -/

/-- The fixed PO-numbering-series prefix list of the source. -/
def prefixos : List String := ["4501", "4502", "4503", "4504", "4505"]

/-- filter_info_adic: whitespace-tokenize, keep the first 10 characters of every
token starting with one of the fixed prefixes, join the kept tokens with a
single space; empty input and no-match both yield the empty string. -/
def filter_info_adic (info : String) : String :=
  if info = "" then ""
  else
    let palavras := splitWs info
    let filtradas :=
      (palavras.filter (fun p => prefixos.any (fun pre => startsWithQ pre p))).map
        (fun p => takeQ 10 p)
    if filtradas.isEmpty then "" else intercalateQ " " filtradas

/-- truncate_to_10_chars: first 10 characters, empty string for falsy input. -/
def truncate_to_10_chars (t : String) : String := if t = "" then "" else takeQ 10 t

/-- The per-line po candidate column: concatenation of the four raw reference
fields (space-joined, as in the source column expression), filtered and then
truncated to 10 characters. -/
def poCandidate (info_adic xPed nItemPed infAdProd : String) : String :=
  truncate_to_10_chars
    (filter_info_adic (info_adic ++ " " ++ xPed ++ " " ++ nItemPed ++ " " ++ infAdProd))

/-- The hint-token list as the spec describes it: whitespace-tokenize, keep
tokens starting with one of the five prefixes, truncate each to 10 chars. -/
def specHintTokens (raw : String) : List String :=
  ((splitWs raw).filter (fun t => prefixos.any (fun pre => startsWithQ pre t))).map
    (fun t => takeQ 10 t)

/-- The candidate as the spec describes it: space-join the kept tokens and
truncate the join to 10 characters. -/
def specCandidate (raw : String) : String := takeQ 10 (intercalateQ " " (specHintTokens raw))

/-- get_first_non_empty_po as a lookup: the first row of the frame whose
invoice key matches and whose candidate is non-empty (the source builds a dict
keyed on first insertion, which yields exactly this lookup). -/
def first_po_dict (rows : List (String × String)) (chave : String) : Option String :=
  (rows.find? (fun r => r.1 == chave && r.2 != "")).map (fun r => r.2)

/-- The resolver assignment: po column mapped through the first-non-empty dict
(chaveNfe.map(first_po_dict)); keys absent from the dict map to null. -/
def resolvePo (rows : List (String × String)) : List (String × Option String) :=
  rows.map (fun r => (r.1, first_po_dict rows r.1))

/-! ## Implied fixed-point currency normalization (format_value line 105-115,
formatar_numero lines 315-337 of 02_upgrade_xml.py; update_xml.py 329-351) -/

/-- A pandas object-column cell of the monetary fields: either a string kept
after a failed numeric parse, or a parsed rational number (the exact value of
the float). -/
inductive Val where
  | s (v : String)
  | q (v : ℚ)
deriving DecidableEq

/-- format_value: strip dots, turn commas into dots, then attempt a float
parse; on failure keep the transformed string. -/
def format_value (s : String) : Val :=
  let t := replaceCharQ ',' '.' (removeCharQ '.' s)
  match pyFloatQ t with
  | some v => .q v
  | none => .s t

/-- Python int() truncation toward zero on a rational. -/
def pyInt (v : ℚ) : Int := if 0 ≤ v then ⌊v⌋ else -⌊-v⌋

/-- formatar_numero: null or empty-string cells become null; a numeric cell is
truncated to int, rendered as digits, and a decimal point is inserted two
characters from the right (values of at most two digits are rendered as
0.; int() on a non-empty non-numeric string raises, modelled as error). -/
def formatar_numero : Option Val → Except String (Option String)
  | none => .ok none
  | some (.s t) => if t = "" then .ok none else .error "ValueError: invalid literal for int"
  | some (.q v) =>
    let xs := intRepr (pyInt v)
    .ok (some (if xs.length > 2 then
        ofChars (xs.data.take (xs.length - 2)) ++ "." ++ ofChars (xs.data.drop (xs.length - 2))
      else "0." ++ zfillQ 2 xs))

/-- The normalization rule as the spec states it: insert a decimal point two
characters from the right of the digit string, zero-padding values under 100
first. -/
def specInsertPoint (d : String) : String :=
  if d.length > 2 then
    ofChars (d.data.take (d.length - 2)) ++ "." ++ ofChars (d.data.drop (d.length - 2))
  else "0." ++ zfillQ 2 d

/-- The full column path of a monetary field value: extraction-time
format_value followed by formatar_numero. -/
def moneyNormalize (raw : String) : Except String (Option String) :=
  formatar_numero (some (format_value raw))

/-! ## Description cleaning (clean_description lines 86-92, upper at line 372) -/

/-- clean_description: collapse runs of spaces to one space and strip. -/
def clean_description (d : String) : String :=
  ofChars (stripChars (collapseSpacesAux false d.data))

/-- The cleaned, upper-cased description column value. -/
def clean_upper (d : String) : String := upperQ (clean_description d)

/-! ## XML field extractor (class ReadXML, 02_upgrade_xml.py lines 117-256).
Elements are modelled as a tag, an attribute list, optional text and a child
list; namespace qualification is implicit (every lookup in the source uses the
single NF-e namespace, so tags stand for the namespace-qualified names). -/

/-- An XML element. -/
inductive XElem where
  | node (tag : String) (attrs : List (String × String)) (text : Option String)
      (children : List XElem)

/-- Tag accessor. -/
def XElem.tag : XElem → String
  | .node t _ _ _ => t

/-- Attribute list accessor. -/
def XElem.attrs : XElem → List (String × String)
  | .node _ a _ _ => a

/-- Text accessor. -/
def XElem.text : XElem → Option String
  | .node _ _ x _ => x

/-- Children accessor. -/
def XElem.children : XElem → List XElem
  | .node _ _ _ c => c

/-- All matches of a child path in document order; model of ElementTree
findall on a ./a/b/c path. -/
def findAllPath : List String → XElem → List XElem
  | [], e => [e]
  | t :: ts, e => (e.children.filter (fun c => c.tag == t)).flatMap (fun c => findAllPath ts c)

/-- First match of a child path in document order; model of ElementTree find. -/
def findQ (p : List String) (e : XElem) : Option XElem := (findAllPath p e).head?

mutual
/-- Document-order preorder listing of an element and its subtree. -/
def preorderElem : XElem → List XElem
  | .node t a x cs => .node t a x cs :: preorderList cs
/-- Document-order preorder listing of a forest. -/
def preorderList : List XElem → List XElem
  | [] => []
  | c :: cs => preorderElem c ++ preorderList cs
end

/-- First descendant with a given tag; model of find on a .//tag path. -/
def findDescQ (tag : String) (e : XElem) : Option XElem :=
  (preorderList e.children).find? (fun d => d.tag == tag)

/-- element.attrib.get(name, default empty). -/
def attrGet (e : XElem) (name : String) : String :=
  ((e.attrs.find? (fun kv => kv.1 == name)).map (fun kv => kv.2)).getD ""

/-- check_none: a missing element or falsy text yields the empty string,
otherwise the element text (the replace of a dot by a dot in the source is the
identity). -/
def check_none : Option XElem → String
  | none => ""
  | some e => match e.text with
    | none => ""
    | some t => t

/-- A field of the emit or dest block: empty when the whole block is missing,
otherwise a check_none lookup inside the block. -/
def subField (blk : Option XElem) (path : List String) : String :=
  match blk with
  | none => ""
  | some e => check_none (findQ path e)

/-- The four cobr-section values; a missing cobr yields the empty-dict
defaults of the source (empty strings, the monetary ones not passed through
format_value). -/
structure CobrData where
  fatura : String
  duplicata : String
  valorOriginal : Val
  valorPago : Val

/-- extract_cobr_data together with the caller guard and .get defaults. -/
def cobrDataOf : Option XElem → CobrData
  | none => { fatura := "", duplicata := "", valorOriginal := .s "", valorPago := .s "" }
  | some c =>
    { fatura := check_none (findQ ["fat", "nFat"] c)
      duplicata := check_none (findQ ["dup", "nDup"] c)
      valorOriginal := format_value (check_none (findQ ["fat", "vOrig"] c))
      valorPago := format_value (check_none (findQ ["fat", "vLiq"] c)) }

/-- One extracted invoice line: the 48 entries of the dados list of nfe_data,
in source order, with the final column names of the pipeline. -/
structure NfeLine where
  chNFe : String
  nNF : String
  serie : String
  natOp : String
  data_emissao : String
  info_adic : String
  dVenc : String
  emitCnpj : String
  emitNome : String
  destCnpj : String
  destNome : String
  valorNfe : Val
  valor_frete : Val
  itemNota : Nat
  cod : String
  qntd : String
  descricao : String
  unidade_medida : String
  vlUnProd : String
  valorProd : String
  ncm : String
  cfop : String
  xPed : String
  nItemPed : String
  infAdProd : String
  data_importacao : String
  usuario : String
  data_saida : String
  fatura : String
  duplicata : String
  valor_original : Val
  valor_pago : Val
  emitLogr : String
  emitNr : String
  emitCompl : String
  emitBairro : String
  emitMunic : String
  emitUf : String
  emitCep : String
  emitPais : String
  destLogr : String
  destNr : String
  destCompl : String
  destBairro : String
  destMunic : String
  destUf : String
  destCep : String
  destPais : String
deriving DecidableEq

/-- The det item elements of the document, findall on NFe/infNFe/det. -/
def detListOf (root : XElem) : List XElem := findAllPath ["NFe", "infNFe", "det"] root

/-- nfe_data: extract one NfeLine per det element of a parsed document,
denormalizing header, issuer, recipient, billing and total fields onto every
line; itemNota counts from 1 in document order. -/
def nfe_data (root : XElem) : List NfeLine :=
  let chNFe := match findDescQ "infNFe" root with
    | some e => attrGet e "Id"
    | none => ""
  let nNF := check_none (findQ ["NFe", "infNFe", "ide", "nNF"] root)
  let serie := check_none (findQ ["NFe", "infNFe", "ide", "serie"] root)
  let natOp := check_none (findQ ["NFe", "infNFe", "ide", "natOp"] root)
  let data_emissao := check_none (findQ ["NFe", "infNFe", "ide", "dhEmi"] root)
  let info_adic := check_none (findQ ["NFe", "infNFe", "infAdic", "infCpl"] root)
  let dVenc := check_none (findQ ["NFe", "infNFe", "cobr", "dup", "dVenc"] root)
  let emit := findQ ["NFe", "infNFe", "emit"] root
  let dest := findQ ["NFe", "infNFe", "dest"] root
  let cobr := findQ ["NFe", "infNFe", "cobr"] root
  let cobrD := cobrDataOf cobr
  (detListOf root).enum.map (fun ie =>
    let item := ie.2
    { chNFe := chNFe
      nNF := nNF
      serie := serie
      natOp := natOp
      data_emissao := data_emissao
      info_adic := info_adic
      dVenc := dVenc
      emitCnpj := subField emit ["CNPJ"]
      emitNome := subField emit ["xNome"]
      destCnpj := subField dest ["CNPJ"]
      destNome := subField dest ["xNome"]
      valorNfe := format_value (check_none (findQ ["NFe", "infNFe", "total", "ICMSTot", "vNF"] root))
      valor_frete :=
        format_value (check_none (findQ ["NFe", "infNFe", "total", "ICMSTot", "vFrete"] root))
      itemNota := ie.1 + 1
      cod := check_none (findQ ["prod", "cProd"] item)
      qntd := check_none (findQ ["prod", "qCom"] item)
      descricao := check_none (findQ ["prod", "xProd"] item)
      unidade_medida := check_none (findQ ["prod", "uCom"] item)
      vlUnProd := check_none (findQ ["prod", "vUnCom"] item)
      valorProd := check_none (findQ ["prod", "vProd"] item)
      ncm := check_none (findQ ["prod", "NCM"] item)
      cfop := check_none (findQ ["prod", "CFOP"] item)
      xPed := check_none (findQ ["prod", "xPed"] item)
      nItemPed := check_none (findQ ["prod", "nItemPed"] item)
      infAdProd := check_none (findQ ["infAdProd"] item)
      data_importacao := check_none (findQ ["NFe", "infNFe", "transp", "vol", "veicId"] root)
      usuario := check_none (findQ ["NFe", "infNFe", "transp", "vol", "placa"] root)
      data_saida := check_none (findQ ["NFe", "infNFe", "transp", "vol", "uf"] root)
      fatura := cobrD.fatura
      duplicata := cobrD.duplicata
      valor_original := cobrD.valorOriginal
      valor_pago := cobrD.valorPago
      emitLogr := subField emit ["enderEmit", "xLgr"]
      emitNr := subField emit ["enderEmit", "nro"]
      emitCompl := subField emit ["enderEmit", "complemento"]
      emitBairro := subField emit ["enderEmit", "xBairro"]
      emitMunic := subField emit ["enderEmit", "xMun"]
      emitUf := subField emit ["enderEmit", "UF"]
      emitCep := subField emit ["enderEmit", "CEP"]
      emitPais := subField emit ["enderEmit", "cPais"]
      destLogr := subField dest ["enderDest", "xLgr"]
      destNr := subField dest ["enderDest", "nro"]
      destCompl := subField dest ["enderDest", "complemento"]
      destBairro := subField dest ["enderDest", "xBairro"]
      destMunic := subField dest ["enderDest", "xMun"]
      destUf := subField dest ["enderDest", "UF"]
      destCep := subField dest ["enderDest", "CEP"]
      destPais := subField dest ["enderDest", "cPais"] })

/-- An input file of the batch loop: either bytes the XML parser rejects
(carrying the parser message) or a parsed document.  The parser itself is an
external collaborator (xml.etree.ElementTree); only its succeed-or-raise
behavior is modelled. -/
inductive XmlFile where
  | malformed (msg : String)
  | wellFormed (root : XElem)

/-- ET.parse: returns the root or raises ParseError. -/
def parseFile : XmlFile → Except String XElem
  | .malformed msg => .error msg
  | .wellFormed root => .ok root

/-- The per-file extraction loop of the source (lines 264-267): results are
extended in order, and a parse exception propagates, aborting the batch. -/
def processBatch : List XmlFile → Except String (List NfeLine)
  | [] => .ok []
  | f :: fs =>
    match parseFile f with
    | .error e => .error e
    | .ok root =>
      match processBatch fs with
      | .error e => .error e
      | .ok rest => .ok (nfe_data root ++ rest)

/-- The lines of every parseable file of a batch, in batch order. -/
def extractAll (files : List XmlFile) : List NfeLine :=
  files.flatMap (fun f =>
    match f with
    | .wellFormed root => nfe_data root
    | .malformed _ => [])

/-- True exactly when the file parses. -/
def parseOk (f : XmlFile) : Bool :=
  match parseFile f with
  | .ok _ => true
  | .error _ => false

/-- A minimal well-formed document: one det item, no dest and no cobr block. -/
def sampleDoc : XElem :=
  .node "nfeProc" [] none
    [.node "NFe" [] none
      [.node "infNFe" [("Id", "NFe35240112345678000199550010000001021000001029")] none
        [.node "ide" [] none [.node "nNF" [] (some "102") []],
         .node "emit" [] none [.node "CNPJ" [] (some "12345678000199") []],
         .node "det" [] none
           [.node "prod" [] none [.node "xProd" [] (some "PARAFUSO M8") []]]]]]

/-- A well-formed document with zero det elements. -/
def docNoDet : XElem :=
  .node "nfeProc" [] none
    [.node "NFe" [] none
      [.node "infNFe" [("Id", "NFe000")] none
        [.node "ide" [] none [.node "nNF" [] (some "7") []]]]]

/-! ## Tax-id normalization (02_upgrade_xml.py lines 506-509 and 547-553).
The column is first coerced with pd.to_numeric(errors=coerce); the resulting
dtype is int64 exactly when every cell parsed, float64 as soon as one cell
became NaN, and astype(str) renders a float64 integer cell with a trailing .0
(every CNPJ fits well below the 16-digit threshold for plain float repr).
Series.replace with two plain strings replaces only cells wholly equal to the
pattern, and str.zfill(14) pads the rendered text. -/

/-- The emitCnpj/destCnpj column pipeline: to_numeric coercion, astype(str),
Series.replace of the value dot-zero by the empty string, str.zfill(14). -/
def cnpjNormalize (raw : List String) : List String :=
  let nums := raw.map toNatD
  let floatDtype := nums.any (fun c => c.isNone)
  ((nums.map (fun c =>
      match c with
      | none => "nan"
      | some n => natRepr n ++ (if floatDtype then ".0" else ""))).map
    (fun s => if s = ".0" then "" else s)).map (fun s => zfillQ 14 s)

/-! ## First dedup key (02_upgrade_xml.py lines 371-372 and 404-407): the
Concat column is built from NFe, Item Nota and the raw description before
clean_description and upper-casing rewrite the description column. -/

/-- The columns entering the first Concat key. -/
structure ConcatRow where
  nfe : String
  itemNota : Nat
  descricao : String
deriving DecidableEq

/-- Concat = NFe + str(Item Nota) + raw description. -/
def concatKey1 (r : ConcatRow) : String := r.nfe ++ natRepr r.itemNota ++ r.descricao

/-! ## Output column bookkeeping (02_upgrade_xml.py lines 281-290, 361,
539-544, 576-581). -/

/-- The 48 dataframe columns after the reindex of line 292. -/
def colunas : List String :=
  ["chaveNfe", "NFe", "Nome Emitente", "Descrição", "Série", "natOp", "Data de Emissão",
   "info_adic", "dVenc", "CNPJ Emitente", "CNPJ Destinatário", "Nome Destinatário",
   "Valor NF-e", "Valor Frete", "Item Nota", "Cód Produto", "Quantidade", "Unidade Medida",
   "vlUnProd", "vlTotProd", "ncm", "cfop", "xPed", "nItemPed", "infAdProd",
   "Data Importação", "Usuário", "Data Saída", "Fatura", "Duplicata", "Valor Original",
   "Valor Pago", "Logradouro Emitente", "Número Emitente", "Complemento Emitente",
   "Bairro Emitente", "Município Emitente", "UF Emitente", "CEP Emitente", "País Emitente",
   "Logradouro Destinatário", "Número Destinatário", "Complemento Destinatário",
   "Bairro Destinatário", "Município Destinatário", "UF Destinatário", "CEP Destinatário",
   "País Destinatário"]

/-- The column set right after line 361 adds the per-invoice total column. -/
def colunasAposVlNf : List String := colunas ++ ["vlNf"]

/-- The first final column selection (lines 539-544), applied before the
PO rollup. -/
def colunasRenomeadas1 : List String :=
  ["nNf", "dtEmi", "itemNf", "nomeMaterial", "ncm", "qtd", "und", "vlUnProd", "vlTotProd",
   "vlTotalNf", "po", "dVenc", "chNfe",
   "emitNome", "emitCnpj", "emitLogr", "emitNr", "emitCompl", "emitBairro", "emitMunic",
   "emitUf", "emitCep", "emitPais",
   "destNome", "destCnpj", "destLogr", "destNr", "destCompl", "destBairro", "destMunic",
   "destUf", "destCep", "destPais", "cfop"]

/-- The column selection after the rollup merge (lines 576-581), the column
set of the final output. -/
def colunasRenomeadasFinal : List String :=
  ["nNf", "dtEmi", "itemNf", "nomeMaterial", "ncm", "qtd", "und", "vlUnProd", "vlTotProd",
   "vlTotalNf", "po", "vlRecPo", "qtdNfPo", "dVenc", "chNfe",
   "emitNome", "emitCnpj", "emitLogr", "emitNr", "emitCompl", "emitBairro", "emitMunic",
   "emitUf", "emitCep", "emitPais",
   "destNome", "destCnpj", "destLogr", "destNr", "destCompl", "destBairro", "destMunic",
   "destUf", "destCep", "destPais", "cfop"]

/-- Per-invoice total: the skipna sum of vlTotProd over the rows sharing one
chaveNfe value. -/
def vlNfGroupSum (rows : List (String × Option ℚ)) (k : String) : ℚ :=
  ((rows.filter (fun r => r.1 == k)).filterMap (fun r => r.2)).sum

/-- Line 361, groupby(chaveNfe).vlTotProd.transform(sum): every row receives
the sum of its invoice group. -/
def addVlNf (rows : List (String × Option ℚ)) : List (String × Option ℚ × ℚ) :=
  rows.map (fun r => (r.1, r.2, vlNfGroupSum rows r.1))

/-! ## Aggregation and PO rollup (02_upgrade_xml.py lines 556-591).  FinalRow
carries the columns that the stage reads or writes; the remaining output
columns ride along unchanged and are omitted from the record.  nNf and po are
Option Nat after the pd.to_numeric coercion of lines 506-509 (none is NaN),
and vlTotalNf is the Option-valued monetary column (none is NaN). -/

/-- A row of the frame entering line 556. -/
structure FinalRow where
  nNf : Option Nat
  dtEmi : String
  itemNf : Nat
  nomeMaterial : String
  chNfe : String
  po : Option Nat
  vlTotalNf : Option ℚ
deriving DecidableEq

/-- A row of the df_po aggregate. -/
structure PoRow where
  chNfe : String
  po : Nat
  vlRecPo : ℚ
  qtdNfPo : Nat
deriving DecidableEq

/-- A row of the merged frame after the rollup join (chNfe is the left
chNfe_x, kept by the rename of line 574; chNfe_y is dropped by the column
selection). -/
structure MergedRow where
  nNf : Option Nat
  dtEmi : String
  itemNf : Nat
  nomeMaterial : String
  chNfe : String
  po : Option Nat
  vlTotalNf : Option ℚ
  vlRecPo : Option ℚ
  qtdNfPo : Option Nat
deriving DecidableEq

/-- The drop_duplicates key of line 558. -/
def rowKey (r : FinalRow) : String × Option Nat := (r.chNfe, r.po)

/-- df_unique = df.drop_duplicates(subset=[chNfe, po]). -/
def df_unique (df : List FinalRow) : List FinalRow := dedupBy rowKey df

/-- Ascending lexicographic order on the (chNfe, po) group keys, the order in
which a sorted groupby emits its groups. -/
def poKeyLe (a b : String × Nat) : Bool :=
  strLtQ a.1 b.1 || (a.1 == b.1 && a.2 ≤ b.2)

/-- df_po = df_unique.groupby([chNfe, po]).agg(vlRecPo=(vlTotalNf, sum),
qtdNfPo=(vlTotalNf, count)).reset_index(): groups with a NaN key are dropped,
keys are emitted sorted, sum is the skipna sum (0 for an all-NaN group) and
count counts the non-NaN cells. -/
def df_po (dfU : List FinalRow) : List PoRow :=
  (sortBy poKeyLe
      (dedupBy id (dfU.filterMap (fun r => r.po.map (fun p => (r.chNfe, p)))))).map
    (fun k =>
      { chNfe := k.1, po := k.2,
        vlRecPo := ((dfU.filter (fun r => decide (rowKey r = (k.1, some k.2)))).filterMap
          (fun r => r.vlTotalNf)).sum,
        qtdNfPo := ((dfU.filter (fun r => decide (rowKey r = (k.1, some k.2)))).filterMap
          (fun r => r.vlTotalNf)).length })

/-- Attach rollup values (or NaN for an unmatched left row) to a row. -/
def mkMerged (r : FinalRow) (v : Option ℚ) (q : Option Nat) : MergedRow :=
  { nNf := r.nNf, dtEmi := r.dtEmi, itemNf := r.itemNf, nomeMaterial := r.nomeMaterial,
    chNfe := r.chNfe, po := r.po, vlTotalNf := r.vlTotalNf, vlRecPo := v, qtdNfPo := q }

/-- df.merge(df_po, on=po, how=left): left rows in order, each replicated per
matching df_po row (right order); an unmatched left row keeps NaN rollups, and
a NaN po never matches because df_po contains no NaN keys. -/
def mergeLeft (df : List FinalRow) (dp : List PoRow) : List MergedRow :=
  df.flatMap (fun r =>
    let ms := dp.filter (fun g => r.po == some g.po)
    if ms.isEmpty then [mkMerged r none none]
    else ms.map (fun g => mkMerged r (some g.vlRecPo) (some g.qtdNfPo)))

/-- astype(str) of the numeric nNf column cell (the exact float-vs-int dtype
rendering is irrelevant to the dedup behavior proved here). -/
def optNatStr : Option Nat → String
  | none => "nan"
  | some n => natRepr n

/-- The second Concat key (line 583): str(nNf) + str(itemNf) + nomeMaterial. -/
def concat2Key (r : MergedRow) : String :=
  optNatStr r.nNf ++ natRepr r.itemNf ++ r.nomeMaterial

/-- Ascending order on the numeric nNf column with NaN last. -/
def optNatLt : Option Nat → Option Nat → Bool
  | some a, some b => a < b
  | some _, none => true
  | none, _ => false

/-- The final sort_values order of line 591: dtEmi descending, nNf ascending,
itemNf ascending. -/
def finalSortLe (a b : MergedRow) : Bool :=
  if a.dtEmi != b.dtEmi then strLtQ b.dtEmi a.dtEmi
  else if a.nNf != b.nNf then optNatLt a.nNf b.nNf
  else a.itemNf ≤ b.itemNf

/-- The whole aggregation step, lines 556-591: dedup on (chNfe, po), per-key
aggregation, left merge on po alone, second Concat dedup, final sort. -/
def finalize (df : List FinalRow) : List MergedRow :=
  let dfU := df_unique df
  let dp := df_po dfU
  let merged := mergeLeft df dp
  sortBy finalSortLe (dedupBy concat2Key merged)

/-- The rollup total the claim asserts: the sum of vlTotalNf over the distinct
invoices of the input frame carrying a given po. -/
def spec_poTotal (df : List FinalRow) (p : Nat) : ℚ :=
  ((dedupBy (fun r => r.chNfe) (df.filter (fun r => r.po == some p))).filterMap
    (fun r => r.vlTotalNf)).sum

/-- The rollup count the claim asserts: the number of distinct invoices of the
input frame carrying a given po. -/
def spec_poCount (df : List FinalRow) (p : Nat) : Nat :=
  (dedupBy (fun r => r.chNfe) (df.filter (fun r => r.po == some p))).length

/-- Claim C1 as a proposition about one input frame: every output line with a
po carries the distinct-invoice sum and count of that po. -/
def c1Holds (df : List FinalRow) : Prop :=
  ∀ r ∈ finalize df, ∀ p, r.po = some p →
    r.vlRecPo = some (spec_poTotal df p) ∧ r.qtdNfPo = some (spec_poCount df p)

/-- Claim C9 as a proposition about one input frame: a non-null po always
carries count 1, a null po carries null rollups. -/
def c9Holds (df : List FinalRow) : Prop :=
  ∀ r ∈ finalize df,
    (r.po.isSome → r.qtdNfPo = some 1) ∧
    (r.po = none → r.vlRecPo = none ∧ r.qtdNfPo = none)

/-- C1 counterexample frame: two invoices A and B sharing one po. -/
def exA : FinalRow :=
  { nNf := some 1, dtEmi := "2024-01-05", itemNf := 1, nomeMaterial := "X", chNfe := "A",
    po := some 4501000000, vlTotalNf := some 100 }

/-- Second invoice of the C1 counterexample frame. -/
def exB : FinalRow :=
  { nNf := some 2, dtEmi := "2024-01-05", itemNf := 1, nomeMaterial := "Y", chNfe := "B",
    po := some 4501000000, vlTotalNf := some 200 }

/-- C9 counterexample frame: one invoice with a po and a null invoice total. -/
def ex9 : FinalRow :=
  { nNf := some 7, dtEmi := "2024-02-01", itemNf := 1, nomeMaterial := "M", chNfe := "A",
    po := some 4501000000, vlTotalNf := none }

/-- A frame whose single row has no resolved po. -/
def exNull : FinalRow :=
  { nNf := some 8, dtEmi := "2024-02-02", itemNf := 1, nomeMaterial := "N", chNfe := "C",
    po := none, vlTotalNf := some 50 }

/-- The output row finalize produces from the ex9 frame. -/
def mrow9 : MergedRow :=
  { nNf := some 7, dtEmi := "2024-02-01", itemNf := 1, nomeMaterial := "M", chNfe := "A",
    po := some 4501000000, vlTotalNf := none, vlRecPo := some 0, qtdNfPo := some 0 }

/-- The output row finalize produces from the exNull frame. -/
def mrowNull : MergedRow :=
  { nNf := some 8, dtEmi := "2024-02-02", itemNf := 1, nomeMaterial := "N", chNfe := "C",
    po := none, vlTotalNf := some 50, vlRecPo := none, qtdNfPo := none }

/-- The df_po aggregate row of the ex9 frame. -/
def grow9 : PoRow := { chNfe := "A", po := 4501000000, vlRecPo := 0, qtdNfPo := 0 }

/-- The output row finalize produces from a line of invoice A of the [exA, exB]
frame: the rollup values come from the group of invoice A. -/
def mrowA : MergedRow :=
  { nNf := some 1, dtEmi := "2024-01-05", itemNf := 1, nomeMaterial := "X", chNfe := "A",
    po := some 4501000000, vlTotalNf := some 100, vlRecPo := some 100, qtdNfPo := some 1 }

/-- The output row finalize produces from a line of invoice B of the [exA, exB]
frame: the rollup values also come from the group of invoice A, the first
df_po row sharing the po. -/
def mrowB : MergedRow :=
  { nNf := some 2, dtEmi := "2024-01-05", itemNf := 1, nomeMaterial := "Y", chNfe := "B",
    po := some 4501000000, vlTotalNf := some 200, vlRecPo := some 100, qtdNfPo := some 1 }

/-- The single line nfe_data extracts from sampleDoc. -/
def sampleLine : NfeLine :=
  { chNFe := "NFe35240112345678000199550010000001021000001029"
    nNF := "102", serie := "", natOp := "", data_emissao := "", info_adic := "", dVenc := ""
    emitCnpj := "12345678000199", emitNome := "", destCnpj := "", destNome := ""
    valorNfe := .s "", valor_frete := .s "", itemNota := 1, cod := "", qntd := ""
    descricao := "PARAFUSO M8", unidade_medida := "", vlUnProd := "", valorProd := ""
    ncm := "", cfop := "", xPed := "", nItemPed := "", infAdProd := ""
    data_importacao := "", usuario := "", data_saida := "", fatura := "", duplicata := ""
    valor_original := .s "", valor_pago := .s ""
    emitLogr := "", emitNr := "", emitCompl := "", emitBairro := "", emitMunic := ""
    emitUf := "", emitCep := "", emitPais := ""
    destLogr := "", destNr := "", destCompl := "", destBairro := "", destMunic := ""
    destUf := "", destCep := "", destPais := "" }

/-- Claim C2 as a proposition: a batch always yields the lines of its
parseable documents (malformed documents reported and skipped, the others
extracted). -/
def c2Holds : Prop := ∀ files : List XmlFile, processBatch files = Except.ok (extractAll files)

/-- Claim C4 as a proposition about the resolver: po constant per invoice
group, taken from the first line with a non-empty candidate, and the empty
string (not null) on groups without a candidate. -/
def c4Holds : Prop := ∀ rows : List (String × String),
  (∀ p ∈ resolvePo rows, ∀ q ∈ resolvePo rows, p.1 = q.1 → p.2 = q.2) ∧
  (∀ p ∈ resolvePo rows, ∀ pre c post, rows = pre ++ (p.1, c) :: post → c ≠ "" →
    (∀ r ∈ pre, r.1 = p.1 → r.2 = "") → p.2 = some c) ∧
  (∀ p ∈ resolvePo rows, (∀ r ∈ rows, r.1 = p.1 → r.2 = "") → p.2 = some "")

/-- Rows exercising the resolver for the C4 witness: invoice A has its
candidate on the second line, invoice B has none. -/
def rows4 : List (String × String) := [("A", ""), ("A", "4501777000"), ("B", "")]

/-- Rows exercising the vlNf transform for the C8 witness. -/
def rows8 : List (String × Option ℚ) := [("A", some 100), ("A", some 25)]

/-- First row of the C10 witness pair: raw description with a double space. -/
def c10r1 : ConcatRow := { nfe := "101", itemNota := 1, descricao := "PARAFUSO  M8" }

/-- Second row of the C10 witness pair: same cleaned description, different
raw text. -/
def c10r2 : ConcatRow := { nfe := "101", itemNota := 1, descricao := "parafuso m8" }

/-! ## Helper lemmas on the sorting and dedup models -/

theorem mem_sortByAux {α : Type} (le : α → α → Bool) (x : α) (l : List α) (a : α) :
    a ∈ sortByAux le x l ↔ a = x ∨ a ∈ l := by
  induction l with
  | nil => simp [sortByAux]
  | cons y ys ih =>
    simp only [sortByAux]
    split
    · simp
    · simp [ih]
      tauto

theorem mem_sortBy {α : Type} (le : α → α → Bool) (l : List α) (a : α) :
    a ∈ sortBy le l ↔ a ∈ l := by
  induction l with
  | nil => simp [sortBy]
  | cons x xs ih => simp [sortBy, mem_sortByAux, ih]

theorem dedupByAux_subset {α β : Type} [DecidableEq β] (key : α → β) (seen : List β)
    (l : List α) : ∀ x ∈ dedupByAux key seen l, x ∈ l := by
  induction l generalizing seen with
  | nil => simp [dedupByAux]
  | cons r rs ih =>
    intro x hx
    simp only [dedupByAux] at hx
    split at hx
    · exact List.mem_cons_of_mem _ (ih _ x hx)
    · rcases List.mem_cons.1 hx with h | h
      · exact h ▸ List.mem_cons_self _ _
      · exact List.mem_cons_of_mem _ (ih _ x h)

theorem dedupBy_subset {α β : Type} [DecidableEq β] (key : α → β) (l : List α) :
    ∀ x ∈ dedupBy key l, x ∈ l :=
  dedupByAux_subset key [] l

theorem dedupByAux_covered {α β : Type} [DecidableEq β] (key : α → β) (seen : List β)
    (l : List α) : ∀ x ∈ l, key x ∉ seen → ∃ y ∈ dedupByAux key seen l, key y = key x := by
  induction l generalizing seen with
  | nil => simp
  | cons r rs ih =>
    intro x hx hks
    rcases List.mem_cons.1 hx with h | h
    · subst h
      simp only [dedupByAux]
      split
      · next hmem => exact absurd hmem hks
      · exact ⟨x, List.mem_cons_self _ _, rfl⟩
    · simp only [dedupByAux]
      split
      · exact ih seen x h hks
      · by_cases hkr : key x = key r
        · exact ⟨r, List.mem_cons_self _ _, hkr.symm⟩
        · obtain ⟨y, hy, hky⟩ := ih (key r :: seen) x h (by
            intro hmem
            rcases List.mem_cons.1 hmem with h1 | h1
            · exact hkr h1
            · exact hks h1)
          exact ⟨y, List.mem_cons_of_mem _ hy, hky⟩

theorem dedupBy_covered {α β : Type} [DecidableEq β] (key : α → β) (l : List α) :
    ∀ x ∈ l, ∃ y ∈ dedupBy key l, key y = key x := fun x hx =>
  dedupByAux_covered key [] l x hx (by simp)

theorem dedupByAux_not_seen {α β : Type} [DecidableEq β] (key : α → β) (seen : List β)
    (l : List α) : ∀ y ∈ dedupByAux key seen l, key y ∉ seen := by
  induction l generalizing seen with
  | nil => simp [dedupByAux]
  | cons r rs ih =>
    intro y hy
    simp only [dedupByAux] at hy
    split at hy
    · exact ih seen y hy
    · rcases List.mem_cons.1 hy with h | h
      · next hns => exact h ▸ hns
      · intro hmem
        exact ih (key r :: seen) y h (List.mem_cons_of_mem _ hmem)

theorem dedupByAux_pairwise {α β : Type} [DecidableEq β] (key : α → β) (seen : List β)
    (l : List α) : (dedupByAux key seen l).Pairwise (fun a b => key a ≠ key b) := by
  induction l generalizing seen with
  | nil => simp [dedupByAux]
  | cons r rs ih =>
    simp only [dedupByAux]
    split
    · exact ih seen
    · refine List.Pairwise.cons (fun y hy => ?_) (ih (key r :: seen))
      have := dedupByAux_not_seen key (key r :: seen) rs y hy
      intro hEq
      exact this (hEq ▸ List.mem_cons_self _ _)

theorem dedupBy_pairwise {α β : Type} [DecidableEq β] (key : α → β) (l : List α) :
    (dedupBy key l).Pairwise (fun a b => key a ≠ key b) :=
  dedupByAux_pairwise key [] l

theorem filter_key_single {α β : Type} [DecidableEq β] (key : α → β) (l : List α)
    (hp : l.Pairwise (fun a b => key a ≠ key b)) (x : α) (hx : x ∈ l) :
    l.filter (fun r => decide (key r = key x)) = [x] := by
  induction l with
  | nil => cases hx
  | cons y ys ih =>
    rcases List.mem_cons.1 hx with h | h
    · subst h
      rw [List.filter_cons_of_pos (by simp)]
      have hnone : ys.filter (fun r => decide (key r = key x)) = [] :=
        List.filter_eq_nil_iff.2 (fun b hb => by
          simp only [decide_eq_true_eq]
          exact fun hEq => (List.pairwise_cons.1 hp).1 b hb hEq.symm)
      rw [hnone]
    · have hne : key y ≠ key x := (List.pairwise_cons.1 hp).1 x h
      rw [List.filter_cons_of_neg (by simp [hne])]
      exact ih (List.pairwise_cons.1 hp).2 h

/-! ## Helper lemmas on the rollup stage -/

theorem mem_df_po_of_key (dfU : List FinalRow) (rl : FinalRow) (p : Nat)
    (h1 : rl ∈ dfU) (h2 : rl.po = some p) :
    ∃ g ∈ df_po dfU, g.chNfe = rl.chNfe ∧ g.po = p := by
  have hkey : (rl.chNfe, p) ∈ dfU.filterMap (fun r => r.po.map (fun q => (r.chNfe, q))) :=
    List.mem_filterMap.2 ⟨rl, h1, by rw [h2]; rfl⟩
  obtain ⟨y, hy, hyk⟩ := dedupBy_covered id _ _ hkey
  have hysort : y ∈ sortBy poKeyLe
      (dedupBy id (dfU.filterMap (fun r => r.po.map (fun q => (r.chNfe, q))))) :=
    (mem_sortBy _ _ _).2 hy
  refine ⟨_, List.mem_map.2 ⟨y, hysort, rfl⟩, ?_, ?_⟩
  · simp only [id] at hyk
    rw [hyk]
  · simp only [id] at hyk
    rw [hyk]

theorem df_po_group (df : List FinalRow) :
    ∀ g ∈ df_po (df_unique df), ∃ r, r ∈ df_unique df ∧ r.chNfe = g.chNfe ∧
      r.po = some g.po ∧ g.vlRecPo = r.vlTotalNf.elim 0 id ∧
      g.qtdNfPo = r.vlTotalNf.elim 0 (fun _ => 1) := by
  intro g hg
  obtain ⟨k, hk, hgk⟩ := List.mem_map.1 hg
  have hk0 : k ∈ (df_unique df).filterMap (fun r => r.po.map (fun q => (r.chNfe, q))) :=
    dedupBy_subset id _ _ ((mem_sortBy _ _ _).1 hk)
  obtain ⟨r, hr, hrk⟩ := List.mem_filterMap.1 hk0
  obtain ⟨q, hpo, hq⟩ : ∃ q, r.po = some q ∧ (r.chNfe, q) = k := by
    cases hpo : r.po with
    | none => rw [hpo] at hrk; simp at hrk
    | some q =>
      rw [hpo] at hrk
      simp only [Option.map_some', Option.some.injEq] at hrk
      exact ⟨q, rfl, hrk⟩
  have hk1 : k.1 = r.chNfe := by rw [← hq]
  have hk2 : k.2 = q := by rw [← hq]
  have hfil : (df_unique df).filter (fun r => decide (rowKey r = (k.1, some k.2))) = [r] := by
    have hkeq : (k.1, some k.2) = rowKey r := by
      simp [rowKey, hpo, hk1, hk2]
    rw [hkeq]
    exact filter_key_single rowKey (df_unique df) (dedupBy_pairwise rowKey df) r hr
  refine ⟨r, hr, ?_, ?_, ?_, ?_⟩
  · rw [← hgk, hk1]
  · rw [← hgk]
    simp only [hpo, hk2]
  · rw [← hgk]
    show ((((df_unique df).filter
        (fun r => decide (rowKey r = (k.1, some k.2)))).filterMap (fun r => r.vlTotalNf)).sum) = _
    rw [hfil]
    cases hv : r.vlTotalNf <;> simp [hv, Option.elim]
  · rw [← hgk]
    show ((((df_unique df).filter
        (fun r => decide (rowKey r = (k.1, some k.2)))).filterMap
          (fun r => r.vlTotalNf)).length) = _
    rw [hfil]
    cases hv : r.vlTotalNf <;> simp [hv, Option.elim]

theorem mergeLeft_origin (df : List FinalRow) (dp : List PoRow) :
    ∀ r ∈ mergeLeft df dp, ∃ rl ∈ df, r.po = rl.po ∧
      ((r.vlRecPo = none ∧ r.qtdNfPo = none ∧
          dp.filter (fun g => rl.po == some g.po) = []) ∨
       (∃ g ∈ dp, rl.po = some g.po ∧ r.vlRecPo = some g.vlRecPo ∧
          r.qtdNfPo = some g.qtdNfPo)) := by
  intro r hr
  obtain ⟨rl, hrl, hin⟩ := List.mem_flatMap.1 hr
  refine ⟨rl, hrl, ?_⟩
  by_cases hE : (dp.filter (fun g => rl.po == some g.po)).isEmpty
  · rw [if_pos hE] at hin
    rcases List.mem_singleton.1 hin with rfl
    exact ⟨rfl, Or.inl ⟨rfl, rfl, List.isEmpty_iff.1 hE⟩⟩
  · rw [if_neg hE] at hin
    obtain ⟨g, hg, hgr⟩ := List.mem_map.1 hin
    have hgdp : g ∈ dp := (List.mem_filter.1 hg).1
    have hgpo : (rl.po == some g.po) = true := (List.mem_filter.1 hg).2
    rcases hgr.symm with rfl
    exact ⟨rfl, Or.inr ⟨g, hgdp, beq_iff_eq.1 hgpo, rfl, rfl⟩⟩

theorem finalize_mem_merge (df : List FinalRow) :
    ∀ r ∈ finalize df, r ∈ mergeLeft df (df_po (df_unique df)) := by
  intro r hr
  exact dedupBy_subset concat2Key _ r ((mem_sortBy _ _ _).1 hr)

theorem finalize_rollup (df : List FinalRow) :
    ∀ r ∈ finalize df, ∀ p, r.po = some p →
      ∃ g ∈ df_po (df_unique df), g.po = p ∧
        r.vlRecPo = some g.vlRecPo ∧ r.qtdNfPo = some g.qtdNfPo := by
  intro r hr p hp
  obtain ⟨rl, hrl, hpo, hcase⟩ := mergeLeft_origin df _ r (finalize_mem_merge df r hr)
  have hrlpo : rl.po = some p := by rw [← hpo, hp]
  rcases hcase with ⟨_, _, hnil⟩ | ⟨g, hg, hgpo, hv, hq⟩
  · obtain ⟨y, hy, hyk⟩ := dedupBy_covered rowKey df rl hrl
    have hypo : y.po = some p := by
      have h2 := congrArg Prod.snd hyk
      simp only [rowKey] at h2
      rw [h2, hrlpo]
    obtain ⟨g, hg, _, hgp⟩ := mem_df_po_of_key (df_unique df) y p hy hypo
    have hmem : g ∈ (df_po (df_unique df)).filter (fun g => rl.po == some g.po) :=
      List.mem_filter.2 ⟨hg, by rw [hrlpo, hgp]; simp⟩
    rw [hnil] at hmem
    cases hmem
  · have hgp : g.po = p := by
      rw [hrlpo] at hgpo
      exact (Option.some.inj hgpo).symm
    exact ⟨g, hg, hgp, hv, hq⟩

theorem finalize_null (df : List FinalRow) :
    ∀ r ∈ finalize df, r.po = none → r.vlRecPo = none ∧ r.qtdNfPo = none := by
  intro r hr hp
  obtain ⟨rl, hrl, hpo, hcase⟩ := mergeLeft_origin df _ r (finalize_mem_merge df r hr)
  rcases hcase with ⟨hv, hq, _⟩ | ⟨g, _, hgpo, _, _⟩
  · exact ⟨hv, hq⟩
  · rw [← hpo, hp] at hgpo
    cases hgpo

/-! ## Helper lemmas on the resolver and normalization functions -/

theorem truncate_eq_take (s : String) : truncate_to_10_chars s = takeQ 10 s := by
  by_cases h : s = ""
  · subst h
    decide
  · simp [truncate_to_10_chars, h]

theorem filter_adic_eq_join (s : String) :
    filter_info_adic s = intercalateQ " " (specHintTokens s) := by
  by_cases h : s = ""
  · subst h
    decide
  · simp only [filter_info_adic, specHintTokens, if_neg h]
    by_cases hk : (((splitWs s).filter
        (fun p => prefixos.any (fun pre => startsWithQ pre p))).map (fun p => takeQ 10 p)).isEmpty
    · rw [if_pos hk, List.isEmpty_iff.1 hk]
      rfl
    · rw [if_neg hk]

theorem pyInt_natCast (n : Nat) : pyInt (n : ℚ) = (n : Int) := by
  simp [pyInt, Int.floor_natCast]

theorem formatar_natCast (n : Nat) :
    formatar_numero (some (.q (n : ℚ))) = .ok (some (specInsertPoint (natRepr n))) := by
  simp only [formatar_numero, pyInt_natCast, specInsertPoint]
  rfl

theorem concatKey1_ne (r1 r2 : ConcatRow) (h1 : r1.nfe = r2.nfe)
    (h2 : r1.itemNota = r2.itemNota) (h3 : r1.descricao ≠ r2.descricao) :
    concatKey1 r1 ≠ concatKey1 r2 := by
  intro h
  apply h3
  unfold concatKey1 at h
  rw [h1, h2] at h
  have hd := congrArg String.data h
  simp only [String.data_append, List.append_assoc] at hd
  exact String.ext (List.append_cancel_left (List.append_cancel_left hd))

/-! ## Claim theorems -/

/-- C3 (code bug).  The tax-id columns are meant to hold 14-digit zero-padded
strings (the source's own comment above the zfill lines), and they do when
every cell of the column coerces to an integer: the 13-digit id becomes
01234567000199.  But as soon as one cell fails coercion (an empty or
non-numeric tax id), the whole column is float-typed, astype(str) appends .0
to every value, Series.replace with plain strings only replaces cells wholly
equal to .0, and zfill never pads the now-longer text: the surviving id is
rendered 1234567000199.0 instead of 01234567000199. -/
theorem C3_taxid_padding_bug :
    cnpjNormalize ["1234567000199", ""] = ["1234567000199.0", "00000000000nan"] ∧
    cnpjNormalize ["1234567000199"] = ["01234567000199"] := by
  constructor
  · decide
  · decide

/-- C5 (confirmed).  Fixed-prefix hint extraction: the worked example resolves
to 4501234567; when no token of the concatenated reference text starts with
one of the five prefixes the candidate is empty; and for every input the
code's candidate (filter_info_adic followed by truncate_to_10_chars) equals
the spec's description — keep the first 10 characters of each
prefix-matching whitespace token, space-join them, truncate the join to 10
characters. -/
theorem C5_hint_extraction :
    poCandidate "texto 4501234567 outro texto" "" "" "" = "4501234567" ∧
    (∀ a b c d : String,
      (∀ t ∈ splitWs (a ++ " " ++ b ++ " " ++ c ++ " " ++ d),
        ∀ pre ∈ prefixos, startsWithQ pre t = false) → poCandidate a b c d = "") ∧
    (∀ s, truncate_to_10_chars (filter_info_adic s) = specCandidate s) := by
  refine ⟨by decide, ?_, ?_⟩
  · intro a b c d h
    unfold poCandidate
    have hfil : filter_info_adic (a ++ " " ++ b ++ " " ++ c ++ " " ++ d) = "" := by
      unfold filter_info_adic
      by_cases hz : (a ++ " " ++ b ++ " " ++ c ++ " " ++ d) = ""
      · rw [if_pos hz]
      · rw [if_neg hz]
        have hnil : (splitWs (a ++ " " ++ b ++ " " ++ c ++ " " ++ d)).filter
            (fun p => prefixos.any (fun pre => startsWithQ pre p)) = [] := by
          refine List.filter_eq_nil_iff.2 (fun t ht => ?_)
          simp only [List.any_eq_true, not_exists, not_and]
          intro pre hpre
          simp [h t ht pre hpre]
        simp [hnil]
    rw [hfil]
    rfl
  · intro s
    rw [truncate_eq_take, filter_adic_eq_join]
    rfl

/-- C5 witness: the no-match branch at a concrete reference text. -/
theorem C5_hint_extraction_witness : poCandidate "nada relevante aqui" "" "" "" = "" :=
  C5_hint_extraction.2.1 "nada relevante aqui" "" "" "" (by decide)

/-- C6 (confirmed).  Implied fixed-point normalization of the monetary
fields: 123456 becomes 1234.56, 5 becomes 0.05, the empty cell and the null
cell become null (never zero), and for every non-negative integer cell the
result is exactly the spec's rule — insert a decimal point two characters
from the right of the digit string, zero-padding under two digits first. -/
theorem C6_fixed_point :
    moneyNormalize "123456" = .ok (some "1234.56") ∧
    moneyNormalize "5" = .ok (some "0.05") ∧
    moneyNormalize "" = .ok none ∧
    formatar_numero none = .ok none ∧
    (∀ n : Nat, formatar_numero (some (.q (n : ℚ))) = .ok (some (specInsertPoint (natRepr n)))) := by
  refine ⟨?_, ?_, by decide, rfl, formatar_natCast⟩
  · have h : moneyNormalize "123456" = formatar_numero (some (.q ((123456 : Nat) : ℚ))) := rfl
    rw [h, formatar_natCast]
    decide
  · have h : moneyNormalize "5" = formatar_numero (some (.q ((5 : Nat) : ℚ))) := rfl
    rw [h, formatar_natCast]
    decide

/-- C10 (confirmed).  The first dedup key uses the raw description: two lines
of the same invoice item whose raw descriptions differ (even when whitespace
cleaning and upper-casing make them equal) get different Concat keys, and
both survive drop_duplicates on Concat. -/
theorem C10_raw_concat_dedup (r1 r2 : ConcatRow) (h1 : r1.nfe = r2.nfe)
    (h2 : r1.itemNota = r2.itemNota) (h3 : r1.descricao ≠ r2.descricao)
    (_ : clean_upper r1.descricao = clean_upper r2.descricao) :
    concatKey1 r1 ≠ concatKey1 r2 ∧ dedupBy concatKey1 [r1, r2] = [r1, r2] := by
  have hne := concatKey1_ne r1 r2 h1 h2 h3
  refine ⟨hne, ?_⟩
  simp [dedupBy, dedupByAux, hne.symm]

/-- C10 witness: descriptions differing only in case and a double space. -/
theorem C10_raw_concat_dedup_witness :
    concatKey1 c10r1 ≠ concatKey1 c10r2 ∧ dedupBy concatKey1 [c10r1, c10r2] = [c10r1, c10r2] :=
  C10_raw_concat_dedup c10r1 c10r2 rfl rfl (by decide) (by decide)

/-- C4 counterexample.  The claim says a group without a non-empty candidate
keeps an empty po; on the single-line frame with an empty candidate the
resolver maps the key through the first-non-empty dict, the key is absent and
the po cell becomes null (NaN), not the empty string. -/
theorem C4_propagation_counterexample : ¬ c4Holds := by
  intro h
  have := (h [("A", "")]).2.2 ("A", none) (by decide) (by decide)
  cases this

/-- C4 (amended).  After the resolver, po is a function of the invoice key,
hence identical across every group; the assigned value is the candidate of
the first line of the group (in original order) with a non-empty candidate;
and when no line of the group has a non-empty candidate the po cell is null
(missing from the dict), not the empty string. -/
theorem C4_propagation_amended (rows : List (String × String)) :
    (∀ p ∈ resolvePo rows, ∀ q ∈ resolvePo rows, p.1 = q.1 → p.2 = q.2) ∧
    (∀ p ∈ resolvePo rows, ∀ pre c post, rows = pre ++ (p.1, c) :: post → c ≠ "" →
      (∀ r ∈ pre, r.1 = p.1 → r.2 = "") → p.2 = some c) ∧
    (∀ p ∈ resolvePo rows, (∀ r ∈ rows, r.1 = p.1 → r.2 = "") → p.2 = none) := by
  refine ⟨?_, ?_, ?_⟩
  · intro p hp q hq hpq
    obtain ⟨a, _, rfl⟩ := List.mem_map.1 hp
    obtain ⟨b, _, rfl⟩ := List.mem_map.1 hq
    simp only at hpq
    simp [hpq]
  · intro p hp pre c post hrows hc hpre
    obtain ⟨a, _, rfl⟩ := List.mem_map.1 hp
    simp only [first_po_dict, hrows, List.find?_append]
    have h1 : pre.find? (fun r => r.1 == a.1 && r.2 != "") = none := by
      refine List.find?_eq_none.2 (fun x hx => ?_)
      by_cases hx1 : x.1 = a.1
      · simp [hpre x hx hx1]
      · simp [hx1]
    have h2 : ((a.1, c) :: post).find? (fun r => r.1 == a.1 && r.2 != "") = some (a.1, c) := by
      rw [List.find?_cons]
      have hcb : (c == "") = false := beq_eq_false_iff_ne.2 hc
      have hbne : ((a.1, c).1 == a.1 && (a.1, c).2 != "") = true := by
        simp [bne, hcb]
      rw [hbne]
    rw [h1, h2]
    rfl
  · intro p hp hall
    obtain ⟨a, ha, rfl⟩ := List.mem_map.1 hp
    simp only [first_po_dict]
    have h1 : rows.find? (fun r => r.1 == a.1 && r.2 != "") = none := by
      refine List.find?_eq_none.2 (fun x hx => ?_)
      by_cases hx1 : x.1 = a.1
      · simp [hall x hx hx1]
      · simp [hx1]
    rw [h1]
    rfl

/-- C4 witness: the group of invoice A takes its candidate from the second
line, and the group of invoice B stays null. -/
theorem C4_propagation_witness :
    (("A", (some "4501777000" : Option String)) ∈ resolvePo rows4) ∧
    (("B", (none : Option String)) : String × Option String).2 = none :=
  ⟨by decide,
   (C4_propagation_amended rows4).2.2 ("B", none) (by decide) (by decide)⟩

/-- C8 counterexample.  The claim says the final output carries the
invoice_total_computed column (vlNf); the final column selection does not
contain it. -/
theorem C8_output_columns_counterexample : "vlNf" ∉ colunasRenomeadasFinal := by decide

/-- C8 (amended).  vlNf is computed (groupby-transform sum of vlTotProd per
invoice, the value carried by every row of the group), but both final column
selections drop it; the final output carries the rollup columns vlRecPo and
qtdNfPo and not invoice_total_computed. -/
theorem C8_output_columns_amended :
    ("vlNf" ∈ colunasAposVlNf) ∧ ("vlNf" ∉ colunasRenomeadas1) ∧
    ("vlNf" ∉ colunasRenomeadasFinal) ∧ ("vlRecPo" ∈ colunasRenomeadasFinal) ∧
    ("qtdNfPo" ∈ colunasRenomeadasFinal) ∧
    (∀ rows x, x ∈ addVlNf rows →
      x.2.2 = ((rows.filter (fun r => r.1 == x.1)).filterMap (fun r => r.2)).sum) := by
  refine ⟨by decide, by decide, by decide, by decide, by decide, ?_⟩
  intro rows x hx
  obtain ⟨r, _, rfl⟩ := List.mem_map.1 hx
  rfl

/-- C8 witness: the transform value on a concrete two-row frame. -/
theorem C8_output_columns_witness :
    (("A", (some (100 : ℚ)), vlNfGroupSum rows8 "A") : String × Option ℚ × ℚ).2.2 =
      ((rows8.filter (fun r => r.1 == "A")).filterMap (fun r => r.2)).sum :=
  C8_output_columns_amended.2.2.2.2.2 rows8 ("A", some 100, vlNfGroupSum rows8 "A")
    (List.mem_map.2 ⟨("A", some 100), List.mem_cons_self _ _, rfl⟩)

/-- C2 counterexample.  The claim says a malformed file is reported, skipped
and does not prevent the other files from being extracted; the batch loop has
no per-file exception handling, so the batch with one malformed file and one
well-formed file yields only the parse error — the well-formed document,
which alone extracts a line, is never delivered. -/
theorem C2_isolation_counterexample :
    ¬ c2Holds ∧
    processBatch [XmlFile.malformed "syntax error", XmlFile.wellFormed sampleDoc] =
      .error "syntax error" ∧ nfe_data sampleDoc = [sampleLine] := by
  refine ⟨?_, rfl, by decide⟩
  intro h
  have := h [XmlFile.malformed "syntax error", XmlFile.wellFormed sampleDoc]
  exact absurd this (by decide)

/-- C2 (amended).  The loop extracts and concatenates the lines of every file
only when every file of the batch parses; as soon as one file is malformed
the whole batch aborts with that parse error and no lines are returned, the
well-formed files included. -/
theorem C2_isolation_amended (files : List XmlFile) :
    ((∀ f ∈ files, parseOk f = true) → processBatch files = .ok (extractAll files)) ∧
    ((∃ f ∈ files, parseOk f = false) → ∃ msg, processBatch files = .error msg) := by
  constructor
  · intro h
    induction files with
    | nil => rfl
    | cons f fs ih =>
      cases f with
      | malformed msg => exact absurd (h _ (List.mem_cons_self _ _)) (by simp [parseOk, parseFile])
      | wellFormed root =>
        have hfs := ih (fun g hg => h g (List.mem_cons_of_mem _ hg))
        simp [processBatch, parseFile, hfs, extractAll]
  · intro h
    induction files with
    | nil => simp at h
    | cons f fs ih =>
      cases f with
      | malformed msg => exact ⟨msg, rfl⟩
      | wellFormed root =>
        obtain ⟨f0, hf0, hbad⟩ := h
        rcases List.mem_cons.1 hf0 with rfl | hmem
        · simp [parseOk, parseFile] at hbad
        · obtain ⟨msg, hmsg⟩ := ih ⟨f0, hmem, hbad⟩
          exact ⟨msg, by simp [processBatch, parseFile, hmsg]⟩

/-- C2 witness: an all-parseable batch is fully extracted, a batch with a
malformed file errors. -/
theorem C2_isolation_witness :
    processBatch [XmlFile.wellFormed sampleDoc] =
      .ok (extractAll [XmlFile.wellFormed sampleDoc]) ∧
    ∃ msg, processBatch [XmlFile.malformed "syntax error"] = .error msg :=
  ⟨(C2_isolation_amended [XmlFile.wellFormed sampleDoc]).1 (by
      intro f hf
      rcases List.mem_cons.1 hf with rfl | h
      · rfl
      · cases h),
   (C2_isolation_amended [XmlFile.malformed "syntax error"]).2
     ⟨XmlFile.malformed "syntax error", List.mem_cons_self _ _, rfl⟩⟩

/-- C7 (confirmed).  Extraction of a parsed document is total: it yields one
line per det element (an empty list for a document with no det, not an
error), and a missing dest block or cobr block leaves every field it feeds
as the empty-string default. -/
theorem C7_total_extraction (root : XElem) :
    ((nfe_data root).length = (detListOf root).length) ∧
    (detListOf root = [] → nfe_data root = []) ∧
    (findQ ["NFe", "infNFe", "dest"] root = none →
      ∀ l ∈ nfe_data root, l.destCnpj = "" ∧ l.destNome = "" ∧ l.destLogr = "" ∧
        l.destNr = "" ∧ l.destCompl = "" ∧ l.destBairro = "" ∧ l.destMunic = "" ∧
        l.destUf = "" ∧ l.destCep = "" ∧ l.destPais = "") ∧
    (findQ ["NFe", "infNFe", "cobr"] root = none →
      ∀ l ∈ nfe_data root, l.fatura = "" ∧ l.duplicata = "" ∧
        l.valor_original = .s "" ∧ l.valor_pago = .s "") := by
  refine ⟨?_, ?_, ?_, ?_⟩
  · simp [nfe_data]
  · intro h
    simp [nfe_data, h]
  · intro h l hl
    simp only [nfe_data] at hl
    obtain ⟨ie, _, rfl⟩ := List.mem_map.1 hl
    rw [h]
    exact ⟨rfl, rfl, rfl, rfl, rfl, rfl, rfl, rfl, rfl, rfl⟩
  · intro h l hl
    simp only [nfe_data] at hl
    obtain ⟨ie, _, rfl⟩ := List.mem_map.1 hl
    rw [h]
    exact ⟨rfl, rfl, rfl, rfl⟩

/-- C7 witness: the no-det document yields the empty list, and the sample
document without dest and cobr blocks extracts its line with empty recipient
and billing fields. -/
theorem C7_total_extraction_witness :
    nfe_data docNoDet = [] ∧ sampleLine.destCnpj = "" ∧ sampleLine.fatura = "" :=
  ⟨(C7_total_extraction docNoDet).2.1 rfl,
   ((C7_total_extraction sampleDoc).2.2.1 rfl sampleLine (by decide)).1,
   ((C7_total_extraction sampleDoc).2.2.2 rfl sampleLine (by decide)).1⟩

/-- C1 counterexample.  Two invoices A (total 100) and B (total 200) share
one po.  The claim predicts po_total_value 300 (the sum over the distinct
invoices attached to the po) on every line; the code groups by (chNfe, po)
over rows already unique in (chNfe, po) — every group is one invoice — and
then broadcasts by po alone, so after the second dedup the line of invoice B
carries the rollup of invoice A, value 100. -/
theorem C1_rollup_counterexample : ¬ c1Holds [exA, exB] := by
  intro h
  have hfin : finalize [exA, exB] = [mrowA, mrowB] := by
    simp [finalize, df_unique, df_po, mergeLeft, exA, exB, mrowA, mrowB, dedupBy, dedupByAux,
      rowKey, sortBy, sortByAux, poKeyLe, strLtQ, strLtChars, mkMerged, concat2Key, optNatStr,
      natRepr, finalSortLe, optNatLt]
  have hmem : mrowB ∈ finalize [exA, exB] := by
    rw [hfin]
    simp
  have hval := (h mrowB hmem 4501000000 rfl).1
  have hspec : spec_poTotal [exA, exB] 4501000000 = 300 := by
    simp [spec_poTotal, exA, exB, dedupBy, dedupByAux]
    norm_num
  rw [hspec] at hval
  have h100 : (some (100 : ℚ) : Option ℚ) = some 300 := hval
  simp only [Option.some.injEq] at h100
  norm_num at h100

/-- C1 (amended).  Each df_po row aggregates exactly one deduplicated
(chNfe, po) row, so its po_total_value is that single invoice's total (0 when
the total is null) and its count is at most 1; and because the merge joins on
po alone, every output line with a po carries the rollup of some (chNfe, po)
group with the same po — not necessarily the group of its own invoice. -/
theorem C1_rollup_amended (df : List FinalRow) :
    (∀ g ∈ df_po (df_unique df), ∃ r, r ∈ df_unique df ∧ r.chNfe = g.chNfe ∧
      r.po = some g.po ∧ g.vlRecPo = r.vlTotalNf.elim 0 id ∧
      g.qtdNfPo = r.vlTotalNf.elim 0 (fun _ => 1)) ∧
    (∀ r ∈ finalize df, ∀ p, r.po = some p →
      ∃ g ∈ df_po (df_unique df), g.po = p ∧ r.vlRecPo = some g.vlRecPo ∧
        r.qtdNfPo = some g.qtdNfPo) :=
  ⟨df_po_group df, finalize_rollup df⟩

/-- C1 witness, on the one-invoice frame [ex9]: its df_po row aggregates the
single deduplicated row, and the output line carries a rollup of a group with
its po. -/
theorem C1_rollup_witness :
    (∃ r, r ∈ df_unique [ex9] ∧ r.chNfe = grow9.chNfe ∧ r.po = some grow9.po ∧
      grow9.vlRecPo = r.vlTotalNf.elim 0 id ∧
      grow9.qtdNfPo = r.vlTotalNf.elim 0 (fun _ => 1)) ∧
    (∃ g ∈ df_po (df_unique [ex9]), g.po = 4501000000 ∧
      mrow9.vlRecPo = some g.vlRecPo ∧ mrow9.qtdNfPo = some g.qtdNfPo) :=
  ⟨(C1_rollup_amended [ex9]).1 grow9 (by decide),
   (C1_rollup_amended [ex9]).2 mrow9 (by decide) 4501000000 rfl⟩

/-- C9 counterexample.  A single invoice with a resolved po but a null
invoice total: the aggregation counts the non-null vlTotalNf cells of its
one-row group, so the output line carries qtdNfPo 0, not 1. -/
theorem C9_rollup_count_counterexample : ¬ c9Holds [ex9] := by
  intro h
  have h1 := (h mrow9 (by decide)).1 (by decide)
  exact absurd h1 (by decide)

/-- C9 (amended).  Every output line with a non-null po carries qtdNfPo 0 or
1 (1 when the broadcast group's invoice total is non-null, 0 when it is
null), and every line with a null po carries null rollup values. -/
theorem C9_rollup_count_amended (df : List FinalRow) (r : MergedRow) (hr : r ∈ finalize df) :
    (r.po.isSome → r.qtdNfPo = some 0 ∨ r.qtdNfPo = some 1) ∧
    (r.po = none → r.vlRecPo = none ∧ r.qtdNfPo = none) := by
  constructor
  · intro hp
    obtain ⟨p, hp'⟩ := Option.isSome_iff_exists.1 hp
    obtain ⟨g, hg, _, _, hq⟩ := finalize_rollup df r hr p hp'
    obtain ⟨rr, _, _, _, _, hcount⟩ := df_po_group df g hg
    rw [hq, hcount]
    cases rr.vlTotalNf <;> simp [Option.elim]
  · exact finalize_null df r hr

/-- C9 witness: the po-carrying line of the [ex9] frame has count 0 or 1, and
the null-po line of the [exNull] frame has null rollups. -/
theorem C9_rollup_count_witness :
    (mrow9.qtdNfPo = some 0 ∨ mrow9.qtdNfPo = some 1) ∧
    (mrowNull.vlRecPo = none ∧ mrowNull.qtdNfPo = none) :=
  ⟨(C9_rollup_count_amended [ex9] mrow9 (by decide)).1 (by decide),
   (C9_rollup_count_amended [exNull] mrowNull (by decide)).2 rfl⟩

end NfePipeline



